import Mathlib

/-!
Verification development for the scheduling and availability engine of the
ai-calendar-assistant repository.  The Python source is shallowly embedded:

* instants are modelled as integers — a calendar date is an integer day
  index whose epoch (day 0) is a Monday, so that `day.emod 7` coincides with
  Python's `datetime.weekday()` (0 = Monday … 6 = Sunday); a time of day is
  an integer count of minutes since midnight (10:00 = 600, 18:00 = 1080);
* Python strings are handled as `List Char`; the handful of `str` methods
  the source uses (`in`, `split`, `replace`, `strip`, `lower`, `find`,
  `rfind`) are re-implemented below with structural or fuel recursion so
  that every concrete instance reduces in the kernel;
* the two external collaborators (Google calendar backend, Groq completion
  endpoint) are passed in as explicit data: busy-interval listings as an
  `Except` value (error = the backend call raised), availability probes and
  write-time re-checks as booleans, HTTP responses as a status/content pair,
  and the JSON decoder (`json.loads`) as a function parameter;
* fallible Python code is embedded through `Option`: a `try`/`except`
  block becomes a match on the `Option` produced by the guarded code.
-/

/-! ## Python string primitives (backend/agent helpers use these) -/

/-- Substring occurrence test: models the Python expression `sub in s`. -/
def containsSub (s sub : List Char) : Bool :=
  match s with
  | [] => sub = []
  | _ :: t => sub.isPrefixOf s || containsSub t sub

/-- Split on a single-character separator: models Python `s.split(sep)`
for the one-character separators the source uses. -/
def splitChar (sep : Char) : List Char → List (List Char)
  | [] => [[]]
  | c :: rest =>
    let r := splitChar sep rest
    if c = sep then [] :: r
    else
      match r with
      | [] => [[c]]
      | h :: t => (c :: h) :: t

/-- Replace every (leftmost, non-overlapping) occurrence of `sub` by `rep`:
models Python `s.replace(sub, rep)`.  Fuel-driven so it reduces in the
kernel; fuel `s.length` always suffices for a non-empty `sub`. -/
def pyReplaceAux (sub rep : List Char) : Nat → List Char → List Char
  | 0, s => s
  | fuel + 1, s =>
    match s with
    | [] => []
    | c :: rest =>
      if sub ≠ [] ∧ sub.isPrefixOf s then
        rep ++ pyReplaceAux sub rep fuel (s.drop sub.length)
      else
        c :: pyReplaceAux sub rep fuel rest

def pyReplace (s sub rep : List Char) : List Char :=
  pyReplaceAux sub rep s.length s

/-- Strip leading and trailing whitespace: models Python `s.strip()` on the
common whitespace characters (space, tab, carriage return, line feed). -/
def pyStrip (s : List Char) : List Char :=
  ((s.dropWhile Char.isWhitespace).reverse.dropWhile Char.isWhitespace).reverse

/-- ASCII lower-casing: models Python `s.lower()` on the ASCII inputs this
code path ever sees. -/
def pyLower (s : List Char) : List Char :=
  s.map Char.toLower

/-- Count occurrences of one character: models Python `s.count(c)` for a
single-character argument. -/
def countChar (c : Char) : List Char → Nat
  | [] => 0
  | x :: rest => (if x = c then 1 else 0) + countChar c rest

/-- Index of the first occurrence of a character, or -1: models Python
`s.find(c)` for a single-character needle. -/
def pyFindAux (c : Char) : List Char → Int → Int
  | [], _ => -1
  | x :: rest, i => if x = c then i else pyFindAux c rest (i + 1)

def pyFind (s : List Char) (c : Char) : Int :=
  pyFindAux c s 0

/-- Index of the last occurrence of a character, or -1: models Python
`s.rfind(c)` for a single-character needle. -/
def pyRfind (s : List Char) (c : Char) : Int :=
  let r := pyFindAux c s.reverse 0
  if r = -1 then -1 else (s.length : Int) - 1 - r

/-- Decimal integer parse: models Python `int(s)` — strips whitespace,
accepts one optional sign followed by at least one ASCII digit, and raises
(`none`) otherwise.  (Pythonic extras such as underscore group separators
and non-ASCII digits are outside the inputs this system handles and are
rejected here.) -/
def pyInt (s : List Char) : Option Int :=
  let t := pyStrip s
  let core := if ("-".toList).isPrefixOf t ∨ ("+".toList).isPrefixOf t then t.drop 1 else t
  if core ≠ [] ∧ core.all Char.isDigit then
    let n : Nat := core.foldl (fun acc c => acc * 10 + (c.toNat - 48)) 0
    some (if ("-".toList).isPrefixOf t then -(n : Int) else (n : Int))
  else
    none

/-! ## Business-hours configuration (config/business_hours.py) -/

def BUSINESS_START_HOUR : Int := 10
def BUSINESS_END_HOUR : Int := 18
def BUSINESS_DAYS : List Int := [0, 1, 2, 3, 4]

def is_business_day (weekday : Int) : Bool :=
  weekday ∈ BUSINESS_DAYS

def is_within_business_hours (hour : Int) (minute : Int) : Bool :=
  let time_minutes := hour * 60 + minute
  let start_minutes := BUSINESS_START_HOUR * 60
  let end_minutes := BUSINESS_END_HOUR * 60
  start_minutes ≤ time_minutes ∧ time_minutes < end_minutes

/-! ## Availability resolver (backend/calender_service.py, get_available_slots)

A busy interval and a slot are both pairs of instants; inside one day we
only need the minutes-since-midnight component. -/

structure BusyInterval where
  start : Int
  stop : Int
deriving DecidableEq, Repr

structure Slot where
  start : Int
  stop : Int
deriving DecidableEq, Repr

/-- Overlap of a candidate slot `[s.start, s.stop)` with a busy interval
`[iv.start, iv.stop)`. -/
def overlapsBusy (s : Slot) (iv : BusyInterval) : Prop :=
  s.start < iv.stop ∧ iv.start < s.stop

instance (s : Slot) (iv : BusyInterval) : Decidable (overlapsBusy s iv) := by
  unfold overlapsBusy; infer_instance

/-- Body of the per-event branch of the slot loop: if the gap between the
cursor and the event start holds at least `d` minutes, emit the single slot
`[cursor, min(event.start, cursor + d)]` guarded by `slot_end > cursor`
(source lines 133-143). -/
def emitSlot (d : Int) (ev : BusyInterval) (cur : Int) : List Slot :=
  if d ≤ ev.start - cur then
    let slotEnd := min ev.start (cur + d)
    if cur < slotEnd then [⟨cur, slotEnd⟩] else []
  else []

/-- The `for event in events` loop of `get_available_slots`: walks the busy
intervals, emitting at most one slot per interval and advancing the cursor
to `max(cursor, event.end)`.  Returns the emitted slots and the final
cursor.  `d` is the requested duration in minutes. -/
def availLoop (d : Int) : List BusyInterval → Int → List Slot × Int
  | [], cur => ([], cur)
  | ev :: rest, cur =>
    let next := availLoop d rest (max cur ev.stop)
    (emitSlot d ev cur ++ next.1, next.2)

/-- `CalendarService.get_available_slots`.  `isAvailable` mirrors
`self.is_available`; `busyResult` is the outcome of the Google events
listing (`Except.error` = the API call raised, caught by the enclosing
`try` which returns `[]`).  Busy intervals and slots are in minutes since
midnight of the requested date; the seconds-based gap comparison
`(gap).total_seconds() >= duration_hours * 3600` is equivalent, after
dividing both sides by 60, to comparing minutes against
`duration_hours * 60`. -/
def get_available_slots (isAvailable : Bool) (busyResult : Except String (List BusyInterval))
    (duration_hours : Int) : List Slot :=
  if ¬ isAvailable then []
  else
    match busyResult with
    | Except.error _ => []
    | Except.ok events =>
      let day_start := BUSINESS_START_HOUR * 60
      let day_end := BUSINESS_END_HOUR * 60
      let d := duration_hours * 60
      let walked := availLoop d events day_start
      if d ≤ day_end - walked.2 then
        walked.1 ++ [⟨walked.2, walked.2 + d⟩]
      else
        walked.1

/-- Busy intervals as the slot-listing code may assume them from the
Google query (ordered by start, well formed, starting no later than the
end of the queried day window). -/
def WellFormedBusy (events : List BusyInterval) : Prop :=
  events.Pairwise (fun a b => a.start ≤ b.start) ∧
  ∀ iv ∈ events, iv.start ≤ iv.stop ∧ iv.start ≤ BUSINESS_END_HOUR * 60

instance (events : List BusyInterval) : Decidable (WellFormedBusy events) := by
  unfold WellFormedBusy; infer_instance

/-! ## Time normalizer (the DateParser helper in backend/agent/helpers) -/

/-- The parsing stage of `DateParser.parse_time` (the body of its `try`
block before the range validation): branches on `':' in s`, then on
`'pm' in s.lower()`, then `'am' in s.lower()`, else a bare 24-hour integer.
`none` models the branch raising `ValueError` inside `int(...)`. -/
def rawParseTime (time_str : String) : Option (Int × Int) :=
  let cs := time_str.toList
  if containsSub cs ":".toList then
    let parts := splitChar ':' cs
    match pyInt (parts.getD 0 []) with
    | none => none
    | some hour =>
      match (if 1 < parts.length then pyInt (parts.getD 1 []) else some 0) with
      | none => none
      | some minute => some (hour, minute)
  else if containsSub (pyLower cs) "pm".toList then
    match pyInt (pyStrip (pyReplace (pyLower cs) "pm".toList [])) with
    | none => none
    | some hour => some (if hour ≠ 12 then hour + 12 else hour, 0)
  else if containsSub (pyLower cs) "am".toList then
    match pyInt (pyStrip (pyReplace (pyLower cs) "am".toList [])) with
    | none => none
    | some hour => some (if hour = 12 then 0 else hour, 0)
  else
    match pyInt cs with
    | none => none
    | some hour => some (hour, 0)

/-- `DateParser.parse_time`: the parse stage followed by the per-field
range validation (`hour = 14` if the hour is outside 0..23, `minute = 0`
if the minute is outside 0..59) and the catch-all `except` returning
`(14, 0)`. -/
def parse_time (time_str : String) : Int × Int :=
  match rawParseTime time_str with
  | none => (14, 0)
  | some (hour0, minute0) =>
    let hour := if ¬ (0 ≤ hour0 ∧ hour0 ≤ 23) then 14 else hour0
    let minute := if ¬ (0 ≤ minute0 ∧ minute0 ≤ 59) then 0 else minute0
    (hour, minute)

/-- `DateParser._get_next_weekday` (dead code in the source: defined but
never called from `parse_date` or anywhere else).  Dates are day indices
with day 0 a Monday, so `current.emod 7` is Python `weekday()`. -/
def get_next_weekday (current_day : Int) (target_weekday : Int) : Int :=
  let days_ahead := target_weekday - current_day.emod 7
  let days_ahead := if days_ahead ≤ 0 then days_ahead + 7 else days_ahead
  current_day + days_ahead

/-- `DateParser.parse_date`.  `isoParse` models
`datetime.strptime(s, %Y-%m-%d)` (the one stdlib call in the function):
it maps a syntactically and calendrically valid ISO date to its day index
and is `none` exactly when `strptime` raises, which the enclosing `try`
converts to the tomorrow default.  `now` is the day index of
`datetime.now()`; the argument is `none` when the caller passes `None`
(which, like the empty string, is falsy). -/
def parse_date (isoParse : String → Option Int) (now : Int)
    (date_string : Option String) : Int :=
  match date_string with
  | none => now + 1
  | some raw =>
    if raw = "" then now + 1
    else
      let ds := pyStrip raw.toList
      if ds.length = 10 ∧ countChar '-' ds = 2 then
        match isoParse (String.mk ds) with
        | some d => d
        | none => now + 1
      else
        let dsl := pyLower ds
        if dsl = "today".toList then now
        else if dsl = "tomorrow".toList then now + 1
        else if dsl = "day after tomorrow".toList ∨ dsl = "overmorrow".toList then now + 2
        else now + 1

/-! ## Intent extractor (backend/agent/ai_assistant.py)

A parsed JSON object (and likewise the dict built by the fallback) is an
association list of string keys to Python values. -/

inductive PyVal where
  | str (s : String)
  | int (n : Int)
  | pyNone
deriving DecidableEq, Repr

def PyDict : Type := List (String × PyVal)

instance : DecidableEq PyDict := by
  unfold PyDict; infer_instance

/-- Dictionary key lookup, `d.get(k)` / `k in d`. -/
def lookupKey (d : PyDict) (k : String) : Option PyVal :=
  (List.find? (fun p => p.1 = k) d).map (fun p => p.2)

/-- `AIAssistant._simple_intent_fallback`: pure keyword classifier used
when the language-model path fails.  Returns the same six-key dict the
Python code builds. -/
def simple_intent_fallback (message : String) : PyDict :=
  let ml := pyLower message.toList
  let intent :=
    if ["book", "schedule", "appointment", "create", "make"].any
        (fun w => containsSub ml w.toList) then "book_appointment"
    else if ["available", "free", "slots", "show", "check"].any
        (fun w => containsSub ml w.toList) then "check_availability"
    else if ["cancel", "delete", "remove"].any
        (fun w => containsSub ml w.toList) then "cancel_appointment"
    else "general_query"
  let date : PyVal :=
    if containsSub ml "tomorrow".toList then PyVal.str "tomorrow"
    else if containsSub ml "today".toList then PyVal.str "today"
    else if containsSub ml "monday".toList then PyVal.str "next monday"
    else if containsSub ml "tuesday".toList then PyVal.str "next tuesday"
    else if containsSub ml "friday".toList then PyVal.str "next friday"
    else PyVal.pyNone
  let time : PyVal :=
    if containsSub ml "2pm".toList ∨ containsSub ml "2 pm".toList then PyVal.str "2pm"
    else if containsSub ml "10am".toList ∨ containsSub ml "10 am".toList then PyVal.str "10am"
    else if containsSub ml "3pm".toList ∨ containsSub ml "3 pm".toList then PyVal.str "3pm"
    else if containsSub ml "9am".toList ∨ containsSub ml "9 am".toList then PyVal.str "9am"
    else PyVal.pyNone
  [("intent", PyVal.str intent), ("date", date), ("time", time),
   ("duration_minutes", PyVal.int 60), ("appointment_type", PyVal.str "appointment"),
   ("confidence", PyVal.str "low")]

/-- Outcome of the `httpx.post` call to the completion endpoint:
either the request raised (network error or timeout) or an HTTP response
with a status code and a body whose relevant part is the message content
string. -/
inductive ApiResult where
  | failure
  | response (status_code : Nat) (content : String)

/-- `AIAssistant._extract_intent`: on HTTP 200, cut the text between the
first opening and the last closing brace and hand it to `json.loads`
(passed in as `jsonLoads`); fall back to the keyword classifier when the
request failed, the status is not 200, no brace block is found, decoding
raises, or the decoded dict is empty or lacks an `intent` key.  A decoded
dict that carries an `intent` key is returned verbatim. -/
def extract_intent (jsonLoads : String → Option PyDict) (api : ApiResult)
    (user_message : String) : PyDict :=
  match api with
  | ApiResult.failure => simple_intent_fallback user_message
  | ApiResult.response code content =>
    if code = 200 then
      let chars := content.toList
      let json_start := pyFind chars '\x7b'
      let json_end := pyRfind chars '\x7d' + 1
      if json_start ≠ -1 ∧ json_start < json_end then
        let json_str := (chars.drop json_start.toNat).take (json_end - json_start).toNat
        match jsonLoads (String.mk json_str) with
        | none => simple_intent_fallback user_message
        | some intent_data =>
          if intent_data = ([] : PyDict) ∨ lookupKey intent_data "intent" = none then
            simple_intent_fallback user_message
          else intent_data
      else simple_intent_fallback user_message
    else simple_intent_fallback user_message

/-! ## Slot manager (backend/agent/helpers/slot_manager.py) -/

/-- A datetime: day index (day 0 = a Monday) plus minutes since midnight. -/
structure TimePoint where
  day : Int
  minutes : Int
deriving DecidableEq, Repr

/-- Decimal rendering of an integer (fuel-driven so concrete instances
reduce in the kernel). -/
def natDigits : Nat → Nat → List Char
  | 0, _ => []
  | fuel + 1, n =>
    if n < 10 then [Char.ofNat (48 + n)]
    else natDigits fuel (n / 10) ++ [Char.ofNat (48 + n % 10)]

def intStr (n : Int) : String :=
  if n < 0 then "-" ++ String.mk (natDigits (n.natAbs + 1) n.natAbs)
  else String.mk (natDigits (n.natAbs + 1) n.natAbs)

/-- Two-digit zero-padded rendering of a value in 0..99 (strftime `%H`,
`%M`, `%I` fields). -/
def twoDigits (n : Int) : String :=
  String.mk [Char.ofNat (48 + ((n.ediv 10).emod 10).toNat),
             Char.ofNat (48 + (n.emod 10).toNat)]

/-- strftime `%I:%M %p` of a time point (12-hour clock). -/
def format12 (tp : TimePoint) : String :=
  let h := tp.minutes.ediv 60
  let m := tp.minutes.emod 60
  let h12 := if h.emod 12 = 0 then 12 else h.emod 12
  twoDigits h12 ++ ":" ++ twoDigits m ++ " " ++ (if h < 12 then "AM" else "PM")

/-- strftime `%H:%M` of a time point. -/
def formatHM (tp : TimePoint) : String :=
  twoDigits (tp.minutes.ediv 60) ++ ":" ++ twoDigits (tp.minutes.emod 60)

/-- Rendering of a calendar date.  Gregorian month-name formatting is out
of scope of the day-index date model, so a date prints as its day index. -/
def dayStr (d : Int) : String :=
  "day " ++ intStr d

/-- The `while` loop of `SlotManager._get_next_business_days`: starting
after `current`, collect day indices whose weekday is Monday–Friday until
`needed` are found, giving up after `fuel` (source: 14) days. -/
def nextBusinessDaysAux (current : Int) (needed : Nat) : Nat → List Int
  | 0 => []
  | fuel + 1 =>
    if needed = 0 then []
    else
      let nxt := current + 1
      if nxt.emod 7 < 5 then nxt :: nextBusinessDaysAux nxt (needed - 1) fuel
      else nextBusinessDaysAux nxt needed fuel

/-- `SlotManager._get_next_business_days` (each suggested day is carried
as its day index; the Python dict around it only adds renderings of that
date plus a constant `slots_count` of 8). -/
def get_next_business_days (start_date : Int) (count : Nat) : List Int :=
  nextBusinessDaysAux start_date count 14

/-- Return value of `SlotManager.check_time_availability`, one `Option` or
`Bool` field per key that some branch of the Python dict may carry
(`none` / `false` = key absent). -/
structure AvailabilityCheck where
  available : Bool
  reason : Option String
  suggested_dates : Option (List Int)
  suggested_times : Option (List String)
  weekend_violation : Bool
  business_hours_violation : Bool
  conflict : Bool
  start_time : Option TimePoint
  end_time : Option TimePoint
  duration : Option Int
  formatted_time : Option String
deriving DecidableEq, Repr

/-- `SlotManager.check_time_availability`.  `isFree` is the result of the
`calendar_service.check_availability(start, end)` probe (`false` also
covers the service-unavailable and API-error cases, which that method maps
to `False`).  The requested time is parsed first; the weekend check runs
before every business-hours check, and the hours checks compare
times-of-day exactly as Python `time` objects compare (minutes since
midnight; the end time is taken modulo 24h because Python `end_time.time()`
is the time-of-day after any rollover).  Nothing in the body can raise, so
the `except` branch of the source is unreachable and has no counterpart
here. -/
def check_time_availability (isFree : Bool) (target_day : Int) (time_str : String)
    (duration_minutes : Int) : AvailabilityCheck :=
  let hm := parse_time time_str
  let start_time : TimePoint := ⟨target_day, hm.1 * 60 + hm.2⟩
  let endTotal := hm.1 * 60 + hm.2 + duration_minutes
  let end_time : TimePoint := ⟨target_day + endTotal.ediv 1440, endTotal.emod 1440⟩
  let weekday := target_day.emod 7
  if 5 ≤ weekday then
    { available := false,
      reason := some "Cannot schedule appointments on this day. We only operate Monday to Friday.",
      suggested_dates := some (get_next_business_days target_day 3),
      suggested_times := none, weekend_violation := true,
      business_hours_violation := false, conflict := false,
      start_time := none, end_time := none, duration := none, formatted_time := none }
  else if start_time.minutes < BUSINESS_START_HOUR * 60 then
    { available := false,
      reason := some ("Requested time " ++ time_str ++ " is before business hours (10:00 AM - 6:00 PM)"),
      suggested_dates := none,
      suggested_times := some ["10:00", "11:00", "12:00", "14:00"],
      weekend_violation := false, business_hours_violation := true, conflict := false,
      start_time := none, end_time := none, duration := none, formatted_time := none }
  else if BUSINESS_END_HOUR * 60 ≤ start_time.minutes then
    { available := false,
      reason := some ("Requested time " ++ time_str ++ " is after business hours (10:00 AM - 6:00 PM)"),
      suggested_dates := none,
      suggested_times := some ["14:00", "15:00", "16:00", "17:00"],
      weekend_violation := false, business_hours_violation := true, conflict := false,
      start_time := none, end_time := none, duration := none, formatted_time := none }
  else if BUSINESS_END_HOUR * 60 < end_time.minutes then
    { available := false,
      reason := some ("Appointment would end at " ++ formatHM end_time ++ ", which is after business hours"),
      suggested_dates := none,
      suggested_times := some ["10:00", "11:00", "14:00", "15:00"],
      weekend_violation := false, business_hours_violation := true, conflict := false,
      start_time := none, end_time := none, duration := none, formatted_time := none }
  else if ¬ isFree then
    { available := false,
      reason := some "Time slot conflicts with existing appointment",
      suggested_dates := none, suggested_times := none,
      weekend_violation := false, business_hours_violation := false, conflict := true,
      start_time := some start_time, end_time := some end_time,
      duration := none, formatted_time := none }
  else
    { available := true, reason := none,
      suggested_dates := none, suggested_times := none,
      weekend_violation := false, business_hours_violation := false, conflict := false,
      start_time := some start_time, end_time := some end_time,
      duration := some duration_minutes, formatted_time := some (format12 start_time) }

/-- Return value of `SlotManager.get_available_slots_with_details`
(the three date renderings of the Python dict are functions of
`target_date` alone and are omitted; `earliest_slot` and `latest_slot`
carry the slot start minutes that the `%H:%M` strings render). -/
structure SlotsDetails where
  slots : List Slot
  total_slots : Nat
  has_morning_slots : Bool
  has_afternoon_slots : Bool
  earliest_slot : Option Int
  latest_slot : Option Int
deriving DecidableEq, Repr

/-- `SlotManager.get_available_slots_with_details`: wraps the resolver
output with counts and morning/afternoon flags (hour < 12 resp. ≥ 12 of
the slot start); an empty slot list — which is also what every caught
exception produces — yields the all-empty record. -/
def get_available_slots_with_details (isAvailable : Bool)
    (busyResult : Except String (List BusyInterval)) : SlotsDetails :=
  let slots := get_available_slots isAvailable busyResult 1
  match slots with
  | [] =>
    { slots := [], total_slots := 0, has_morning_slots := false,
      has_afternoon_slots := false, earliest_slot := none, latest_slot := none }
  | first :: _ =>
    { slots := slots, total_slots := slots.length,
      has_morning_slots := slots.any (fun s => s.start.ediv 60 < 12),
      has_afternoon_slots := slots.any (fun s => 12 ≤ s.start.ediv 60),
      earliest_slot := some first.start,
      latest_slot := some ((slots.getLastD first).start) }

/-! ## Booking coordinator (slot_manager.py create path + ai_assistant.py) -/

/-- Return value of `calendar_service.create_event` (that method catches
its own exceptions, so a raised insert comes back as
`success = false` with an error string). -/
structure CreateEventResult where
  success : Bool
  event_id : Option String
  html_link : Option String
  error : Option String
deriving DecidableEq, Repr

/-- The `appointment_details` dict assembled on a successful booking. -/
structure ApptDetails where
  title : String
  date : Int
  start_minutes : Int
  end_minutes : Int
  duration_minutes : Int
  event_link : Option String
  event_id : Option String
deriving DecidableEq, Repr

/-- Return value of `SlotManager.create_appointment_with_validation`
(`message` is absent when the function forwards the raw
`create_event` failure dict unchanged). -/
structure BookingResult where
  success : Bool
  error : Option String
  message : Option String
  appointment_details : Option ApptDetails
deriving DecidableEq, Repr

/-- `SlotManager.create_appointment_with_validation`: the verify-then-write
step.  `freeAtWrite` is the fresh `calendar_service.check_availability`
probe made immediately before writing; `createRes` is what
`calendar_service.create_event` returns when called.  When the re-check
fails, the conflict dict is returned and the create call is never made —
which is why the result cannot depend on `createRes` in that case.  Both
collaborator methods catch their own exceptions, so the `except` branch of
the source is unreachable and has no counterpart here. -/
def create_appointment_with_validation (freeAtWrite : Bool)
    (createRes : CreateEventResult) (title : String)
    (start_time end_time : TimePoint) : BookingResult :=
  if ¬ freeAtWrite then
    { success := false,
      error := some "Time slot is no longer available",
      message := some "Someone else may have booked this time. Please choose another slot.",
      appointment_details := none }
  else if createRes.success then
    { success := true, error := none,
      message := some ("Appointment created successfully for " ++ dayStr start_time.day
        ++ " at " ++ format12 start_time),
      appointment_details := some
        { title := title, date := start_time.day,
          start_minutes := start_time.minutes, end_minutes := end_time.minutes,
          duration_minutes := (end_time.day * 1440 + end_time.minutes)
            - (start_time.day * 1440 + start_time.minutes),
          event_link := createRes.html_link, event_id := createRes.event_id } }
  else
    { success := false, error := createRes.error, message := none,
      appointment_details := none }

/-- Responses assembled by `ResponseBuilder` (one `Option`/`Bool` field per
key that some builder emits; `none` / `false` = key absent). -/
structure ChatResponse where
  response : String
  success : Option Bool
  error : Option Bool
  error_details : Option String
  action : Option String
  appointment_created : Option Bool
  appointment_details : Option ApptDetails
  available_slots : Option (List Slot)
  requested_time : Option String
  suggested_times : Option (List String)
  suggested_dates : Option (List Int)
deriving DecidableEq, Repr

/-- A response with only the `response` field set; the builders below
override the keys their Python counterparts add. -/
def baseResponse (msg : String) : ChatResponse :=
  { response := msg, success := none, error := none, error_details := none,
    action := none, appointment_created := none, appointment_details := none,
    available_slots := none, requested_time := none, suggested_times := none,
    suggested_dates := none }

/-- `ResponseBuilder.build_error_response`. -/
def build_error_response (message : String) (error : Option String) : ChatResponse :=
  { baseResponse message with
    success := some false
    error := some true
    error_details := error }

/-- `ResponseBuilder.build_appointment_confirmation` (the long
confirmation message interpolates the detail fields; its prose is carried
opaquely here as the rendered details). -/
def build_appointment_confirmation (details : ApptDetails) : ChatResponse :=
  { baseResponse ("Perfect! Your appointment has been successfully booked! "
      ++ dayStr details.date ++ " "
      ++ formatHM ⟨details.date, details.start_minutes⟩ ++ " - "
      ++ formatHM ⟨details.date, details.end_minutes⟩ ++ " " ++ details.title) with
    appointment_created := some true
    appointment_details := some details
    action := some "appointment_confirmed" }

/-- `ResponseBuilder.build_time_conflict_response` (a `None` requested
time is interpolated by Python as the text `None`). -/
def build_time_conflict_response (requested_time : Option String)
    (alternatives : List Slot) : ChatResponse :=
  { baseResponse ("Unfortunately, " ++ requested_time.getD "None"
      ++ " is not available. Here are some nearby alternatives:") with
    requested_time := some (requested_time.getD "None")
    available_slots := some (alternatives.take 3)
    action := some "show_alternatives" }

/-- `ResponseBuilder.build_business_hours_error` (the interpolated prose is
abbreviated to the requested time; the structured fields are exact). -/
def build_business_hours_error (requested_time : Option String)
    (suggested_times : List String) : ChatResponse :=
  { baseResponse ("Sorry, " ++ requested_time.getD "None"
      ++ " is outside our business hours.") with
    action := some "business_hours_violation"
    suggested_times := some suggested_times
    success := some false
    error := some true }

/-- `ResponseBuilder.build_weekend_error` (the interpolated prose is
abbreviated to the date; the structured fields are exact). -/
def build_weekend_error (requested_date : Int)
    (suggested_dates : List Int) : ChatResponse :=
  { baseResponse ("Sorry, we don't operate on " ++ dayStr requested_date ++ ".") with
    action := some "weekend_violation"
    suggested_dates := some suggested_dates
    success := some false
    error := some true }

/-- `AIAssistant._book_specific_time`.  Collaborator behaviour is passed
in explicitly: `freeAtCheck` feeds the availability probe inside
`check_time_availability`, `freeAtWrite` the pre-write re-check inside
`create_appointment_with_validation`, `createRes` the create call, and
`calAvailable`/`busyResult` the whole-day slot listing that the
check-time-conflict branch fetches for its three suggestions.
`intent_time`, `duration_minutes` and `appointment_type` are
`intent_data.get('time')` (with default `'14:00'`),
`intent_data.get('duration_minutes', 60)` and
`intent_data.get('appointment_type', 'Appointment')`. -/
def book_specific_time (freeAtCheck freeAtWrite : Bool) (createRes : CreateEventResult)
    (calAvailable : Bool) (busyResult : Except String (List BusyInterval))
    (date : Int) (intent_time : Option String) (duration_minutes : Int)
    (appointment_type : Option String) : ChatResponse :=
  let availability := check_time_availability freeAtCheck date
    (intent_time.getD "14:00") duration_minutes
  if availability.available then
    let appointment_title := "AI Scheduled - " ++ appointment_type.getD "Appointment"
    let result := create_appointment_with_validation freeAtWrite createRes
      appointment_title (availability.start_time.getD ⟨0, 0⟩)
      (availability.end_time.getD ⟨0, 0⟩)
    if result.success then
      match result.appointment_details with
      | some details => build_appointment_confirmation details
      | none => build_error_response "Failed to create appointment" none
    else
      build_error_response (result.message.getD "Failed to create appointment") none
  else if availability.business_hours_violation then
    build_business_hours_error intent_time (availability.suggested_times.getD [])
  else if availability.weekend_violation then
    build_weekend_error date (availability.suggested_dates.getD [])
  else
    let slots_data := get_available_slots_with_details calAvailable busyResult
    build_time_conflict_response intent_time (slots_data.slots.take 3)

/-! ## Lemmas about the availability resolver -/

theorem emitSlot_mem {d : Int} {ev : BusyInterval} {cur : Int} {s : Slot}
    (hs : s ∈ emitSlot d ev cur) :
    s.start = cur ∧ s.stop = cur + d ∧ cur + d ≤ ev.start := by
  simp only [emitSlot] at hs
  split at hs
  case isTrue h =>
    have hle : cur + d ≤ ev.start := by linarith
    rw [min_eq_right hle] at hs
    split at hs
    case isTrue h2 =>
      simp only [List.mem_singleton] at hs
      subst hs
      exact ⟨rfl, rfl, hle⟩
    case isFalse h2 => simp at hs
  case isFalse h => simp at hs

theorem emitSlot_length_le (d : Int) (ev : BusyInterval) (cur : Int) :
    (emitSlot d ev cur).length ≤ 1 := by
  simp only [emitSlot]
  split
  · split <;> simp
  · simp

theorem availLoop_cursor_mono (d : Int) :
    ∀ (events : List BusyInterval) (cur : Int), cur ≤ (availLoop d events cur).2 := by
  intro events
  induction events with
  | nil => intro cur; simp [availLoop]
  | cons ev rest ih =>
    intro cur
    have h1 : cur ≤ max cur ev.stop := le_max_left _ _
    have h2 := ih (max cur ev.stop)
    simpa [availLoop] using le_trans h1 h2

theorem availLoop_stops_le (d : Int) :
    ∀ (events : List BusyInterval) (cur : Int), ∀ iv ∈ events,
      iv.stop ≤ (availLoop d events cur).2 := by
  intro events
  induction events with
  | nil => intro cur iv h; simp at h
  | cons ev rest ih =>
    intro cur iv h
    rcases List.mem_cons.mp h with heq | hmem
    · subst heq
      have h1 : iv.stop ≤ max cur iv.stop := le_max_right _ _
      have h2 := availLoop_cursor_mono d rest (max cur iv.stop)
      simpa [availLoop] using le_trans h1 h2
    · have := ih (max cur ev.stop) iv hmem
      simpa [availLoop] using this

theorem availLoop_length_le (d : Int) :
    ∀ (events : List BusyInterval) (cur : Int),
      (availLoop d events cur).1.length ≤ events.length := by
  intro events
  induction events with
  | nil => intro cur; simp [availLoop]
  | cons ev rest ih =>
    intro cur
    have h1 := emitSlot_length_le d ev cur
    have h2 := ih (max cur ev.stop)
    simp only [availLoop, List.length_append, List.length_cons]
    omega

theorem availLoop_slots_spec (d : Int) :
    ∀ (events : List BusyInterval) (cur : Int),
      events.Pairwise (fun a b => a.start ≤ b.start) →
      (∀ iv ∈ events, iv.start ≤ BUSINESS_END_HOUR * 60) →
      ∀ s ∈ (availLoop d events cur).1,
        s.stop - s.start = d ∧ cur ≤ s.start ∧ s.stop ≤ BUSINESS_END_HOUR * 60 ∧
        ∀ iv ∈ events, ¬ overlapsBusy s iv := by
  intro events
  induction events with
  | nil => intro cur _ _ s hs; simp [availLoop] at hs
  | cons ev rest ih =>
    intro cur hsort hin s hs
    have hs' : s ∈ emitSlot d ev cur ++ (availLoop d rest (max cur ev.stop)).1 := by
      simpa [availLoop] using hs
    have hev_in : ev.start ≤ BUSINESS_END_HOUR * 60 := hin ev (List.mem_cons_self ev rest)
    rcases List.mem_append.mp hs' with hmem | hmem
    · obtain ⟨h1, h2, h3⟩ := emitSlot_mem hmem
      refine ⟨by omega, by omega, by omega, ?_⟩
      intro iv hiv
      simp only [overlapsBusy, not_and, not_lt]
      intro _
      rcases List.mem_cons.mp hiv with heq | hmem'
      · subst heq; omega
      · have hle : ev.start ≤ iv.start := (List.pairwise_cons.mp hsort).1 iv hmem'
        omega
    · have hrest := ih (max cur ev.stop) (List.pairwise_cons.mp hsort).2
        (fun iv h => hin iv (List.mem_cons_of_mem ev h)) s hmem
      obtain ⟨hd, hcur, hbound, hover⟩ := hrest
      have hcur' : cur ≤ s.start := le_trans (le_max_left cur ev.stop) hcur
      refine ⟨hd, hcur', hbound, ?_⟩
      intro iv hiv
      rcases List.mem_cons.mp hiv with heq | hmem'
      · subst heq
        have hstop : iv.stop ≤ s.start := le_trans (le_max_right cur iv.stop) hcur
        simp only [overlapsBusy, not_and, not_lt]
        omega
      · exact hover iv hmem'

/-! ## Claim theorems: availability resolver (C2, C3, C8) -/

/-- C2: the resolver emits at most one duration-sized slot per free gap —
the slot `[cursor, cursor + duration]` whenever the gap up to the next
busy interval is at least the duration, plus at most one final slot before
business-hours end (so never more than one slot per busy interval plus
one); and on the concrete instance of the claim — business hours
[10:00, 18:00), busy `[(11:00, 12:00)]`, 60-minute duration — it yields
exactly the slots 10:00-11:00 and 12:00-13:00, whose starts are 10:00 and
12:00, none overlapping 11:00-12:00, all ending at or before 18:00. -/
theorem resolver_one_slot_per_gap :
    (∀ (duration_hours : Int) (events : List BusyInterval),
      (get_available_slots true (Except.ok events) duration_hours).length
        ≤ events.length + 1) ∧
    get_available_slots true (Except.ok [⟨660, 720⟩]) 1 = [⟨600, 660⟩, ⟨720, 780⟩] ∧
    (get_available_slots true (Except.ok [⟨660, 720⟩]) 1).map Slot.start = [600, 720] ∧
    (∀ s ∈ get_available_slots true (Except.ok [⟨660, 720⟩]) 1,
      ¬ overlapsBusy s ⟨660, 720⟩ ∧ s.stop ≤ 1080) := by
  refine ⟨?_, by decide, by decide, by decide⟩
  intro dh events
  have hlen := availLoop_length_le (dh * 60) events (BUSINESS_START_HOUR * 60)
  unfold get_available_slots
  simp only [not_true, if_false, Bool.not_true]
  split
  · simp only [List.length_append, List.length_singleton]
    omega
  · omega

/-- C3: for every well-formed, start-ordered busy list and nonnegative
requested duration, every slot the resolver returns spans exactly the
requested duration, lies wholly inside the business-hours window
[10:00, 18:00), and overlaps no busy interval of the list. -/
theorem resolver_slot_invariants (duration_hours : Int) (events : List BusyInterval)
    (hd : 0 ≤ duration_hours) (hwf : WellFormedBusy events) :
    ∀ s ∈ get_available_slots true (Except.ok events) duration_hours,
      s.stop - s.start = duration_hours * 60 ∧
      BUSINESS_START_HOUR * 60 ≤ s.start ∧ s.start ≤ s.stop ∧
      s.stop ≤ BUSINESS_END_HOUR * 60 ∧
      ∀ iv ∈ events, ¬ overlapsBusy s iv := by
  obtain ⟨hsort, hwf2⟩ := hwf
  have hin : ∀ iv ∈ events, iv.start ≤ BUSINESS_END_HOUR * 60 :=
    fun iv h => (hwf2 iv h).2
  have hd60 : 0 ≤ duration_hours * 60 := by linarith
  intro s hs
  unfold get_available_slots at hs
  simp only [not_true, Bool.not_true, if_false] at hs
  have hmono := availLoop_cursor_mono (duration_hours * 60) events (BUSINESS_START_HOUR * 60)
  split at hs
  case isTrue hfin =>
    rcases List.mem_append.mp hs with hmem | hmem
    · have := availLoop_slots_spec (duration_hours * 60) events
        (BUSINESS_START_HOUR * 60) hsort hin s hmem
      obtain ⟨h1, h2, h3, h4⟩ := this
      exact ⟨h1, by omega, by omega, h3, h4⟩
    · simp only [List.mem_singleton] at hmem
      have hstart : s.start = (availLoop (duration_hours * 60) events
          (BUSINESS_START_HOUR * 60)).2 := by rw [hmem]
      have hstop : s.stop = (availLoop (duration_hours * 60) events
          (BUSINESS_START_HOUR * 60)).2 + duration_hours * 60 := by rw [hmem]
      refine ⟨by omega, by omega, by omega, by omega, ?_⟩
      intro iv hiv
      have := availLoop_stops_le (duration_hours * 60) events (BUSINESS_START_HOUR * 60) iv hiv
      simp only [overlapsBusy, not_and, not_lt]
      omega
  case isFalse hfin =>
    have := availLoop_slots_spec (duration_hours * 60) events
      (BUSINESS_START_HOUR * 60) hsort hin s hs
    obtain ⟨h1, h2, h3, h4⟩ := this
    exact ⟨h1, by omega, by omega, h3, h4⟩

/-- Witness for `resolver_slot_invariants` at the concrete busy list of
the gap-finding scenario. -/
theorem resolver_slot_invariants_witness :
    (0 : Int) ≤ 1 ∧ WellFormedBusy [⟨660, 720⟩] ∧
    ∀ s ∈ get_available_slots true (Except.ok [⟨660, 720⟩]) 1,
      s.stop - s.start = 1 * 60 ∧
      BUSINESS_START_HOUR * 60 ≤ s.start ∧ s.start ≤ s.stop ∧
      s.stop ≤ BUSINESS_END_HOUR * 60 ∧
      ∀ iv ∈ [(⟨660, 720⟩ : BusyInterval)], ¬ overlapsBusy s iv :=
  ⟨by decide, by decide, resolver_slot_invariants 1 [⟨660, 720⟩] (by decide) (by decide)⟩

/-- C8: when the calendar service is unavailable or the backend listing
call raises, the resolver returns the empty slot list — the very value a
fully booked day produces — and the details wrapper likewise returns the
same all-empty record in both situations; no exception escapes (the
embedding is a total function). -/
theorem resolver_failure_is_empty :
    (∀ (busyResult : Except String (List BusyInterval)) (duration_hours : Int),
      get_available_slots false busyResult duration_hours = []) ∧
    (∀ (e : String) (duration_hours : Int),
      get_available_slots true (Except.error e) duration_hours = []) ∧
    get_available_slots false (Except.error "HttpError") 1
      = get_available_slots true (Except.ok [⟨600, 1080⟩]) 1 ∧
    (∀ busyResult : Except String (List BusyInterval),
      get_available_slots_with_details false busyResult
        = get_available_slots_with_details true (Except.ok [⟨600, 1080⟩])) := by
  refine ⟨?_, ?_, by decide, ?_⟩
  · intro br dh; simp [get_available_slots]
  · intro e dh; simp [get_available_slots]
  · intro br
    have h1 : get_available_slots false br 1 = [] := by simp [get_available_slots]
    have h2 : get_available_slots true (Except.ok [⟨600, 1080⟩]) 1 = [] := by decide
    simp [get_available_slots_with_details, h1, h2]

/-! ## Claim theorems: time normalizer (C4, C5) -/

/-- C4 counterexample: the time string 25:30 parses to the out-of-range
hour 25 with the in-range minute 30, yet `parse_time` returns (14, 30) —
the parsed minute is kept — and not the fixed default (14, 0) the claim
asserts. -/
theorem time_clamp_counterexample :
    rawParseTime "25:30" = some (25, 30) ∧
    ¬ (0 ≤ (25 : Int) ∧ (25 : Int) ≤ 23) ∧
    parse_time "25:30" = (14, 30) ∧
    ((14 : Int), (30 : Int)) ≠ ((14 : Int), (0 : Int)) := by decide

/-- C4 (amended): whenever the parse stage succeeds, each field is clamped
independently — an out-of-range hour is replaced by 14 and an out-of-range
minute by 0, while an in-range companion field is preserved; no error is
raised (and an unparseable string yields (14, 0) by definition of
`parse_time`). -/
theorem time_clamp_per_field (s : String) (h m : Int)
    (hs : rawParseTime s = some (h, m)) :
    parse_time s = ((if 0 ≤ h ∧ h ≤ 23 then h else 14),
                    (if 0 ≤ m ∧ m ≤ 59 then m else 0)) := by
  simp only [parse_time, hs]
  by_cases h1 : 0 ≤ h ∧ h ≤ 23 <;> by_cases h2 : 0 ≤ m ∧ m ≤ 59 <;> simp [h1, h2]

/-- Witness for `time_clamp_per_field` at the string 25:30. -/
theorem time_clamp_per_field_witness :
    rawParseTime "25:30" = some (25, 30) ∧
    parse_time "25:30"
      = ((if 0 ≤ (25 : Int) ∧ (25 : Int) ≤ 23 then (25 : Int) else 14),
         (if 0 ≤ (30 : Int) ∧ (30 : Int) ≤ 59 then (30 : Int) else 0)) :=
  ⟨by decide, time_clamp_per_field "25:30" 25 30 (by decide)⟩

/-- C5: `parse_date` does not recognize weekday names — for every model of
`strptime` and every current day, the inputs monday and friday land in the
default-to-tomorrow branch reserved for unrecognized input, even though the
helper `_get_next_weekday` (embedded as `get_next_weekday`, and dead code
in the source) computes the next-occurrence resolution the claim and the
surrounding documentation describe: from a Monday (day 0), next monday is
day 7 and next friday is day 4, neither of which is tomorrow (day 1). -/
theorem weekday_names_fall_through :
    (∀ (isoParse : String → Option Int) (now : Int),
      parse_date isoParse now (some "monday") = now + 1 ∧
      parse_date isoParse now (some "friday") = now + 1) ∧
    get_next_weekday 0 0 = 7 ∧ get_next_weekday 0 4 = 4 ∧
    (0 : Int) + 1 ≠ 7 ∧ (0 : Int) + 1 ≠ 4 :=
  ⟨fun _ _ => ⟨rfl, rfl⟩, by decide, by decide, by decide, by decide⟩

/-! ## Claim theorems: intent extractor (C6, C9, C10) -/

/-- Behaviour of `json.loads` on the single document the C6 counterexample
feeds it: the JSON object whose one key `intent` maps to the string
`reschedule` decodes to the corresponding one-entry dict. -/
def jsonLoadsUnknownIntent : String → Option PyDict := fun s =>
  if s = "\x7b\"intent\": \"reschedule\"\x7d" then
    some [("intent", PyVal.str "reschedule")]
  else none

/-- C6 counterexample: a well-formed 200 response whose JSON carries the
unknown intent `reschedule` is returned verbatim by `_extract_intent` —
the intent field is not one of the four tags and is not normalized to
`general_query`. -/
theorem intent_passthrough_counterexample :
    extract_intent jsonLoadsUnknownIntent
        (ApiResult.response 200 "\x7b\"intent\": \"reschedule\"\x7d") "please reschedule"
      = [("intent", PyVal.str "reschedule")] ∧
    lookupKey (extract_intent jsonLoadsUnknownIntent
        (ApiResult.response 200 "\x7b\"intent\": \"reschedule\"\x7d") "please reschedule")
        "intent"
      = some (PyVal.str "reschedule") ∧
    PyVal.str "reschedule" ∉ [PyVal.str "book_appointment", PyVal.str "check_availability",
      PyVal.str "cancel_appointment", PyVal.str "general_query"] := by decide

/-- C6 (amended): the fallback classifier always produces an intent equal
to one of the four tags, and `_extract_intent` returns either that
fallback dict or the decoded model dict verbatim — so a model-supplied
intent value, known or unknown, is passed through unmodified rather than
normalized to `general_query`. -/
theorem intent_fallback_tags_passthrough (jsonLoads : String → Option PyDict)
    (api : ApiResult) (user_message : String) :
    (∃ tag, tag ∈ ["book_appointment", "check_availability", "cancel_appointment",
        "general_query"] ∧
      lookupKey (simple_intent_fallback user_message) "intent" = some (PyVal.str tag)) ∧
    (extract_intent jsonLoads api user_message = simple_intent_fallback user_message ∨
      ∃ s d, jsonLoads s = some d ∧ extract_intent jsonLoads api user_message = d) := by
  constructor
  · refine ⟨_, ?_, rfl⟩
    split_ifs <;> simp
  · cases api with
    | failure => exact Or.inl rfl
    | response code content =>
      simp only [extract_intent]
      split
      · split
        · split
          · exact Or.inl rfl
          · next d heq =>
            split
            · exact Or.inl rfl
            · exact Or.inr ⟨_, d, heq, rfl⟩
        · exact Or.inl rfl
      · exact Or.inl rfl

/-- C9: the keyword fallback classifier is a pure, deterministic function
of the message text — equal inputs give equal outputs — and its confidence
field is always the string low. -/
theorem fallback_deterministic_low_confidence (m1 m2 : String) (h : m1 = m2) :
    simple_intent_fallback m1 = simple_intent_fallback m2 ∧
    lookupKey (simple_intent_fallback m1) "confidence" = some (PyVal.str "low") := by
  subst h
  exact ⟨rfl, rfl⟩

/-- Witness for `fallback_deterministic_low_confidence` at a concrete
message. -/
theorem fallback_deterministic_low_confidence_witness :
    "Book appointment tomorrow at 2 PM" = "Book appointment tomorrow at 2 PM" ∧
    (simple_intent_fallback "Book appointment tomorrow at 2 PM"
        = simple_intent_fallback "Book appointment tomorrow at 2 PM" ∧
      lookupKey (simple_intent_fallback "Book appointment tomorrow at 2 PM") "confidence"
        = some (PyVal.str "low")) :=
  ⟨rfl, fallback_deterministic_low_confidence
    "Book appointment tomorrow at 2 PM" "Book appointment tomorrow at 2 PM" rfl⟩

/-- C10: the booking-keyword test runs before the cancellation-keyword
test, so every message containing the substring appointment
(case-insensitively) is classified `book_appointment` and never
`cancel_appointment` — including messages that also contain cancel, delete
or remove. -/
theorem booking_keywords_win (message : String)
    (h : containsSub (pyLower message.toList) "appointment".toList = true) :
    lookupKey (simple_intent_fallback message) "intent"
      = some (PyVal.str "book_appointment") ∧
    lookupKey (simple_intent_fallback message) "intent"
      ≠ some (PyVal.str "cancel_appointment") := by
  have hc : (["book", "schedule", "appointment", "create", "make"].any
      (fun w => containsSub (pyLower message.toList) w.toList)) = true :=
    List.any_eq_true.mpr ⟨"appointment", by decide, h⟩
  have hkey : lookupKey (simple_intent_fallback message) "intent"
      = some (PyVal.str "book_appointment") := by
    simp only [simple_intent_fallback]
    rw [hc]
    rfl
  refine ⟨hkey, ?_⟩
  rw [hkey]
  decide

/-- Witness for `booking_keywords_win` at the message
cancel my appointment. -/
theorem booking_keywords_win_witness :
    containsSub (pyLower "cancel my appointment".toList) "appointment".toList = true ∧
    (lookupKey (simple_intent_fallback "cancel my appointment") "intent"
        = some (PyVal.str "book_appointment") ∧
      lookupKey (simple_intent_fallback "cancel my appointment") "intent"
        ≠ some (PyVal.str "cancel_appointment")) :=
  ⟨by decide, booking_keywords_win "cancel my appointment" (by decide)⟩

/-! ## Claim theorems: policy validator (C7) -/

theorem nextBusinessDaysAux_spec :
    ∀ (fuel : Nat) (current : Int) (needed : Nat),
      (nextBusinessDaysAux current needed fuel).length ≤ needed ∧
      ∀ day ∈ nextBusinessDaysAux current needed fuel, current < day := by
  intro fuel
  induction fuel with
  | zero => intro current needed; simp [nextBusinessDaysAux]
  | succ fuel ih =>
    intro current needed
    simp only [nextBusinessDaysAux]
    by_cases h0 : needed = 0
    · simp [h0]
    · rw [if_neg h0]
      by_cases h1 : (current + 1).emod 7 < 5
      · rw [if_pos h1]
        obtain ⟨hl, hm⟩ := ih (current + 1) (needed - 1)
        refine ⟨?_, ?_⟩
        · simp only [List.length_cons]
          omega
        · intro day hd
          rcases List.mem_cons.mp hd with heq | hd'
          · omega
          · have := hm day hd'
            omega
      · rw [if_neg h1]
        obtain ⟨hl, hm⟩ := ih (current + 1) needed
        refine ⟨hl, ?_⟩
        intro day hd
        have := hm day hd
        omega

/-- C7: for every Saturday or Sunday target date and every time string
(business-hours-violating ones included), `check_time_availability`
reports the weekend violation — never a business-hours violation, never a
conflict — with up to 3 suggested days, each strictly after the requested
date (and, the weekend check being first, the availability outcome is
negative regardless of every other input). -/
theorem policy_weekend_precedence (isFree : Bool) (target_day : Int)
    (time_str : String) (duration_minutes : Int) (hw : 5 ≤ target_day.emod 7) :
    (check_time_availability isFree target_day time_str duration_minutes).available = false ∧
    (check_time_availability isFree target_day time_str duration_minutes).weekend_violation
      = true ∧
    (check_time_availability isFree target_day time_str
        duration_minutes).business_hours_violation = false ∧
    (check_time_availability isFree target_day time_str duration_minutes).conflict = false ∧
    ∃ ds, (check_time_availability isFree target_day time_str
        duration_minutes).suggested_dates = some ds ∧
      ds.length ≤ 3 ∧ ∀ day ∈ ds, target_day < day := by
  have hr : check_time_availability isFree target_day time_str duration_minutes =
      { available := false,
        reason := some "Cannot schedule appointments on this day. We only operate Monday to Friday.",
        suggested_dates := some (get_next_business_days target_day 3),
        suggested_times := none, weekend_violation := true,
        business_hours_violation := false, conflict := false,
        start_time := none, end_time := none, duration := none, formatted_time := none } := by
    simp only [check_time_availability]
    rw [if_pos hw]
  obtain ⟨hl, hm⟩ := nextBusinessDaysAux_spec 14 target_day 3
  rw [hr]
  exact ⟨rfl, rfl, rfl, rfl, get_next_business_days target_day 3, rfl, hl, hm⟩

/-- Witness for `policy_weekend_precedence`: a Saturday (day 5) request at
09:00. -/
theorem policy_weekend_precedence_witness :
    5 ≤ (5 : Int).emod 7 ∧
    ((check_time_availability true 5 "09:00" 60).available = false ∧
      (check_time_availability true 5 "09:00" 60).weekend_violation = true ∧
      (check_time_availability true 5 "09:00" 60).business_hours_violation = false ∧
      (check_time_availability true 5 "09:00" 60).conflict = false ∧
      ∃ ds, (check_time_availability true 5 "09:00" 60).suggested_dates = some ds ∧
        ds.length ≤ 3 ∧ ∀ day ∈ ds, (5 : Int) < day) :=
  ⟨by decide, policy_weekend_precedence true 5 "09:00" 60 (by decide)⟩

/-! ## Claim theorems: booking coordinator (C1) -/

/-- C1 counterexample: with the calendar free at check time but occupied at
write time (and a create call that would succeed if it were issued), the
coordinator returns exactly the generic error-builder response carrying the
conflict message — `available_slots`, `suggested_times` and `action` are
all absent, so the nearest-3-slots suggestion the claim asserts does not
happen even though the day (busy only 10:00-11:00) has computed slots; and
the outcome differs from a generic create-failure response only in its
message text. -/
theorem verify_then_write_conflict_counterexample :
    book_specific_time true false ⟨true, some "evt", some "link", none⟩ true
        (Except.ok [⟨600, 660⟩]) 0 (some "14:00") 60 none
      = build_error_response
          "Someone else may have booked this time. Please choose another slot." none ∧
    (book_specific_time true false ⟨true, some "evt", some "link", none⟩ true
        (Except.ok [⟨600, 660⟩]) 0 (some "14:00") 60 none).available_slots = none ∧
    (book_specific_time true false ⟨true, some "evt", some "link", none⟩ true
        (Except.ok [⟨600, 660⟩]) 0 (some "14:00") 60 none).suggested_times = none ∧
    (book_specific_time true false ⟨true, some "evt", some "link", none⟩ true
        (Except.ok [⟨600, 660⟩]) 0 (some "14:00") 60 none).action = none ∧
    (book_specific_time true false ⟨true, some "evt", some "link", none⟩ true
        (Except.ok [⟨600, 660⟩]) 0 (some "14:00") 60 none).appointment_created = none ∧
    get_available_slots true (Except.ok [⟨600, 660⟩]) 1 = [⟨660, 720⟩] ∧
    build_error_response "Failed to create appointment" none
      = { build_error_response
            "Someone else may have booked this time. Please choose another slot." none with
          response := "Failed to create appointment" } := by decide

/-- C1 (amended): when the pre-write re-check reports the window occupied,
no create call is issued (the outcome is independent of the create result)
and the coordinator returns the generic error response carrying the
distinct conflict message — never a Booked outcome and never an exception —
but it attaches no suggested slots: the nearest-3-slots suggestion belongs
to the earlier check-time conflict branch, not to this write-time one. -/
theorem verify_then_write_conflict (freeAtCheck : Bool)
    (createRes createRes2 : CreateEventResult) (calAvailable : Bool)
    (busyResult : Except String (List BusyInterval)) (date : Int)
    (intent_time : Option String) (duration_minutes : Int)
    (appointment_type : Option String)
    (havail : (check_time_availability freeAtCheck date (intent_time.getD "14:00")
        duration_minutes).available = true) :
    book_specific_time freeAtCheck false createRes calAvailable busyResult date
        intent_time duration_minutes appointment_type
      = build_error_response
          "Someone else may have booked this time. Please choose another slot." none ∧
    book_specific_time freeAtCheck false createRes calAvailable busyResult date
        intent_time duration_minutes appointment_type
      = book_specific_time freeAtCheck false createRes2 calAvailable busyResult date
          intent_time duration_minutes appointment_type ∧
    (book_specific_time freeAtCheck false createRes calAvailable busyResult date
        intent_time duration_minutes appointment_type).appointment_created ≠ some true ∧
    (book_specific_time freeAtCheck false createRes calAvailable busyResult date
        intent_time duration_minutes appointment_type).available_slots = none := by
  have key : ∀ cr : CreateEventResult,
      book_specific_time freeAtCheck false cr calAvailable busyResult date
          intent_time duration_minutes appointment_type
        = build_error_response
            "Someone else may have booked this time. Please choose another slot." none := by
    intro cr
    simp only [book_specific_time]
    rw [havail]
    simp [create_appointment_with_validation]
  refine ⟨key createRes, (key createRes).trans (key createRes2).symm, ?_, ?_⟩
  · rw [key createRes]
    simp [build_error_response, baseResponse]
  · rw [key createRes]
    rfl

/-- Witness for `verify_then_write_conflict`: a Monday 14:00 hour-long
request, free at check time, taken at write time. -/
theorem verify_then_write_conflict_witness :
    (check_time_availability true 0 ((some "14:00").getD "14:00") 60).available = true ∧
    (book_specific_time true false ⟨true, some "evt", some "link", none⟩ true
          (Except.ok []) 0 (some "14:00") 60 none
        = build_error_response
            "Someone else may have booked this time. Please choose another slot." none ∧
      book_specific_time true false ⟨true, some "evt", some "link", none⟩ true
          (Except.ok []) 0 (some "14:00") 60 none
        = book_specific_time true false ⟨false, none, none, some "boom"⟩ true
            (Except.ok []) 0 (some "14:00") 60 none ∧
      (book_specific_time true false ⟨true, some "evt", some "link", none⟩ true
          (Except.ok []) 0 (some "14:00") 60 none).appointment_created ≠ some true ∧
      (book_specific_time true false ⟨true, some "evt", some "link", none⟩ true
          (Except.ok []) 0 (some "14:00") 60 none).available_slots = none) :=
  ⟨by decide, verify_then_write_conflict true ⟨true, some "evt", some "link", none⟩
    ⟨false, none, none, some "boom"⟩ true (Except.ok []) 0 (some "14:00") 60 none
    (by decide)⟩
